import Mathlib

/-!
A shallow embedding of the tastypie validation module (`tastypie/validation.py`):
the `Validation` no-op validator, `model_to_dict`, and the form-backed
`FormValidation` with its `form_args`, `_prepare_related_value` and `is_valid`
operations.  Python dicts are modelled as association lists with in-place
key replacement (`dictInsert`); raising an exception (a `KeyError` from a
missing `resource_uri`, an `ImproperlyConfigured` from the constructor) is
modelled with `Option`/`Except`; the bundle, the only piece of state the
module may mutate, is threaded explicitly, so each operation returns the
bundle it leaves behind.
-/

/-- Dynamic values flowing through bundles and forms.  `vmodel pk` models a
model instance carrying its primary key; `vdict` a plain dict payload;
`vbundle d` a nested `Bundle` whose `data` dict is `d` (only its
`resource_uri` entry is ever read); `vint`/`vnone` cover the remaining
scalar payloads. -/
inductive Value where
  | vlist (items : List Value)
  | vmodel (pk : Value)
  | vdict (entries : List (String × Value))
  | vstr (s : String)
  | vint (n : Int)
  | vnone
  | vbundle (data : List (String × Value))

/-- A Python dict with string keys, as an association list. -/
abbrev Dict := List (String × Value)

/-- Python dict assignment `d[k] = v`: replace the binding of `k` in place,
or append a fresh binding at the end. -/
def dictInsert (k : String) (v : Value) : Dict → Dict
  | [] => [(k, v)]
  | (k', v') :: rest => if k = k' then (k, v) :: rest else (k', v') :: dictInsert k v rest

/-- Python `d1.update(d2)`: write every binding of `d2` into `d1`. -/
def dictUpdate (d1 d2 : Dict) : Dict :=
  d2.foldl (fun d kv => dictInsert kv.1 kv.2 d) d1

/-- The object attached to a bundle: whether it exposes a `pk` attribute,
and that primary key. -/
structure Obj where
  hasPk : Bool
  pk : Value

/-- A tastypie `Bundle`: its `data` payload (`none` models Python `None`)
and its attached object. -/
structure Bundle where
  data : Option Dict
  obj : Obj

/-- A resource field descriptor: its read-only flag and its dehydration
function. -/
structure ResField where
  readonly : Bool
  dehydrate : Bundle → Value

/-- A resource: its mapping from field name to field descriptor. -/
structure Resource where
  fields : List (String × ResField)

/-- The loop of `model_to_dict` over `resource.fields.items()`: skip
read-only fields, dehydrate the rest, and replace a nested `Bundle` value by
its `resource_uri` entry; a missing `resource_uri` is a `KeyError`, modelled
as `none`. -/
def model_to_dict_go (bundle : Bundle) : List (String × ResField) → Dict → Option Dict
  | [], data => some data
  | (name, field) :: rest, data =>
    if field.readonly then model_to_dict_go bundle rest data
    else
      match field.dehydrate bundle with
      | .vbundle bd =>
        match bd.lookup "resource_uri" with
        | some v => model_to_dict_go bundle rest (dictInsert name v data)
        | none => none
      | v => model_to_dict_go bundle rest (dictInsert name v data)

/-- `model_to_dict(bundle, resource)`: the dehydrated serialization of the
non-read-only resource fields, nested `Bundle` values replaced by their
`resource_uri`. -/
def model_to_dict (bundle : Bundle) (resource : Resource) : Option Dict :=
  model_to_dict_go bundle resource.fields []

/-- A form field descriptor: whether the field is a `ModelChoiceField` or a
`ModelMultipleChoiceField` (a relation to another model). -/
structure FormFieldDesc where
  isRelational : Bool
  deriving Repr, DecidableEq

/-- The outcome of running an external form: its validity, its
`cleaned_data`, and its `errors` mapping. -/
structure FormResult where
  valid : Bool
  cleaned_data : Dict
  errors : List (String × List String)

/-- The keyword arguments `form_args` assembles for the form constructor:
the optional `kwargs` entry binding the instance, and the `data` dict. -/
structure FormArgs where
  instanceArg : Option Obj
  data : Dict

/-- An external form class: its declared `base_fields`, whether it
subclasses `ModelForm`, and its (external) validation behaviour when
constructed and run on a set of arguments. -/
structure FormClass where
  base_fields : List (String × FormFieldDesc)
  isModelForm : Bool
  run : FormArgs → FormResult

/-- The error mapping validators return: field name to list of messages. -/
abbrev Errors := List (String × List String)

/-- A configuration exception raised by a constructor. -/
inductive PyError where
  | improperlyConfigured (msg : String)
  deriving Repr, DecidableEq

/-- The no-op `Validation` class (its constructor accepts and ignores any
keyword arguments). -/
structure Validation where
  deriving Repr, DecidableEq

/-- `Validation.is_valid`: performs no check on the bundle and always
returns the empty error mapping. -/
def Validation.is_valid (_self : Validation) (_bundle : Bundle) (_resource : Resource)
    (_request : Option Unit) : Errors :=
  []

/-- The form-backed validator: it stores the configured form class. -/
structure FormValidation where
  form_class : FormClass

/-- `FormValidation.__init__(**kwargs)`: raise `ImproperlyConfigured` when
the `form_class` keyword is absent, otherwise pop it and store it. -/
def FormValidation.init (kwargs : List (String × FormClass)) : Except PyError FormValidation :=
  match kwargs.lookup "form_class" with
  | none => .error (.improperlyConfigured "You must provide a form_class to FormValidation classes.")
  | some fc => .ok { form_class := fc }

/-- Python `s.strip` over the slash character: drop the leading and the
trailing slashes. -/
def strip_slashes (cs : List Char) : List Char :=
  ((cs.dropWhile (fun c => c = '/')).reverse.dropWhile (fun c => c = '/')).reverse

/-- Python `s.split` over the slash character, keeping empty segments. -/
def split_slash : List Char → List (List Char)
  | [] => [[]]
  | c :: rest =>
    if c = '/' then [] :: split_slash rest
    else
      match split_slash rest with
      | [] => [[c]]
      | seg :: segs => (c :: seg) :: segs

/-- The string normalization of `_prepare_related_value`: strip slashes,
split on the slash, take the last segment. -/
def last_segment (s : String) : String :=
  String.mk (((split_slash (strip_slashes s.toList)).getLast?).getD [])

mutual

/-- `FormValidation._prepare_related_value`: unwrap a list recursively, a
model instance to its primary key, a dict holding an `id` entry to that
entry, a string to the last path segment of its slash-stripped form;
every other value passes through unchanged. -/
def FormValidation.prepare_related_value : Value → Value
  | .vlist items => .vlist (FormValidation.prepare_related_list items)
  | .vmodel pk => pk
  | .vdict entries =>
    match entries.lookup "id" with
    | some v => v
    | none => .vdict entries
  | .vstr s => .vstr (last_segment s)
  | v => v

/-- The list comprehension inside `_prepare_related_value`. -/
def FormValidation.prepare_related_list : List Value → List Value
  | [] => []
  | v :: rest => FormValidation.prepare_related_value v :: FormValidation.prepare_related_list rest

end

/-- The first loop of `form_args`: keep only the bundle data entries whose
key is a declared form field. -/
def FormValidation.filter_form_data (bundle_data : Dict) :
    List (String × FormFieldDesc) → Dict → Dict
  | [], data => data
  | (name, _) :: rest, data =>
    match bundle_data.lookup name with
    | some v => FormValidation.filter_form_data bundle_data rest (dictInsert name v data)
    | none => FormValidation.filter_form_data bundle_data rest data

/-- The last loop of `form_args`: rebind every relational form field present
in `data` to its normalized value. -/
def FormValidation.normalize_related :
    List (String × FormFieldDesc) → Dict → Dict
  | [], data => data
  | (name, field) :: rest, data =>
    if field.isRelational then
      match data.lookup name with
      | some v =>
        FormValidation.normalize_related rest
          (dictInsert name (FormValidation.prepare_related_value v) data)
      | none => FormValidation.normalize_related rest data
    else FormValidation.normalize_related rest data

/-- `FormValidation.form_args(bundle, resource)`: filter the bundle data to
the declared form fields; when the object has a primary key, bind the
instance (for `ModelForm` subclasses) and overlay `model_to_dict`; shallow
copy (the identity under value semantics); normalize relational values; and
return the keyword arguments together with the bundle left behind.  `none`
models an exception propagating out of `model_to_dict`. -/
def FormValidation.form_args (v : FormValidation) (bundle : Bundle) (resource : Resource) :
    Option (FormArgs × Bundle) :=
  let bundle_data := bundle.data.getD []
  let data := FormValidation.filter_form_data bundle_data v.form_class.base_fields []
  let step : Option (Option Obj × Dict) :=
    if bundle.obj.hasPk then
      match model_to_dict bundle resource with
      | some md =>
        some (if v.form_class.isModelForm then some bundle.obj else none, dictUpdate data md)
      | none => none
    else some (none, data)
  match step with
  | none => none
  | some (kwinstance, data1) =>
    let data2 := FormValidation.normalize_related v.form_class.base_fields data1
    some ({ instanceArg := kwinstance, data := data2 }, bundle)

/-- `FormValidation.is_valid(bundle, resource, request)`: build the form
from `form_args` and run it; on success, overlay `cleaned_data` on
`model_to_dict`, write the result into `bundle.data` and return the empty
mapping; on failure, return `form.errors` with the bundle untouched. -/
def FormValidation.is_valid (v : FormValidation) (bundle : Bundle) (resource : Resource)
    (_request : Option Unit) : Option (Errors × Bundle) :=
  match v.form_args bundle resource with
  | none => none
  | some (args, bundle1) =>
    let form := v.form_class.run args
    if form.valid then
      match model_to_dict bundle1 resource with
      | none => none
      | some model_data =>
        some ([], { bundle1 with data := some (dictUpdate model_data form.cleaned_data) })
    else
      some (form.errors, bundle1)

/-! ## Dictionary lemmas -/

theorem lookup_cons_self (k : String) (v : Value) (rest : Dict) :
    ((k, v) :: rest).lookup k = some v := by
  simp [List.lookup]

theorem lookup_cons_ne (k n : String) (v : Value) (rest : Dict) (h : n ≠ k) :
    ((k, v) :: rest).lookup n = rest.lookup n := by
  have hb : (n == k) = false := beq_false_of_ne h
  simp [List.lookup, hb]

theorem lookup_dictInsert_self (k : String) (v : Value) :
    ∀ d : Dict, (dictInsert k v d).lookup k = some v
  | [] => by simp [dictInsert, lookup_cons_self]
  | (k', v') :: rest => by
    by_cases h : k = k'
    · subst h; simp [dictInsert, lookup_cons_self]
    · rw [dictInsert, if_neg h, lookup_cons_ne k' k v' _ (fun he => h he),
        lookup_dictInsert_self k v rest]

theorem lookup_dictInsert_ne (k n : String) (v : Value) (h : n ≠ k) :
    ∀ d : Dict, (dictInsert k v d).lookup n = d.lookup n
  | [] => by rw [dictInsert]; exact lookup_cons_ne k n v [] h
  | (k', v') :: rest => by
    by_cases hk : k = k'
    · subst hk
      rw [dictInsert, if_pos rfl, lookup_cons_ne k n v rest h, lookup_cons_ne k n v' rest h]
    · rw [dictInsert, if_neg hk]
      by_cases hn : n = k'
      · subst hn; rw [lookup_cons_self, lookup_cons_self]
      · rw [lookup_cons_ne k' n v' _ hn, lookup_cons_ne k' n v' rest hn,
          lookup_dictInsert_ne k n v h rest]

theorem lookup_eq_none_iff (n : String) :
    ∀ d : Dict, d.lookup n = none ↔ n ∉ d.map Prod.fst
  | [] => by simp [List.lookup]
  | (k, v) :: rest => by
    by_cases h : n = k
    · subst h; simp [lookup_cons_self]
    · rw [lookup_cons_ne k n v rest h]
      simp [lookup_eq_none_iff n rest, h]

theorem mem_keys_dictInsert (k n : String) (v : Value) :
    ∀ d : Dict, n ∈ (dictInsert k v d).map Prod.fst ↔ n = k ∨ n ∈ d.map Prod.fst
  | [] => by simp [dictInsert]
  | (k', v') :: rest => by
    by_cases h : k = k'
    · subst h; simp [dictInsert]
    · simp only [dictInsert, if_neg h, List.map, List.mem_cons]
      rw [mem_keys_dictInsert k n v rest]
      tauto

theorem keys_nodup_dictInsert (k : String) (v : Value) :
    ∀ d : Dict, (d.map Prod.fst).Nodup → ((dictInsert k v d).map Prod.fst).Nodup
  | [], _ => by simp [dictInsert]
  | (k', v') :: rest, hnd => by
    by_cases h : k = k'
    · subst h; simpa [dictInsert] using hnd
    · simp only [dictInsert, if_neg h, List.map, List.nodup_cons] at hnd ⊢
      refine ⟨?_, keys_nodup_dictInsert k v rest hnd.2⟩
      rw [mem_keys_dictInsert]
      push_neg
      exact ⟨fun he => h he.symm, hnd.1⟩

theorem dictUpdate_nil (d1 : Dict) : dictUpdate d1 [] = d1 := rfl

theorem dictUpdate_cons (d1 : Dict) (k : String) (w : Value) (rest : Dict) :
    dictUpdate d1 ((k, w) :: rest) = dictUpdate (dictInsert k w d1) rest := rfl

theorem lookup_dictUpdate_not_mem (n : String) :
    ∀ (d2 d1 : Dict), n ∉ d2.map Prod.fst → (dictUpdate d1 d2).lookup n = d1.lookup n
  | [], _, _ => rfl
  | (k, w) :: rest, d1, h => by
    have hne : n ≠ k := fun he => h (by subst he; simp)
    have hrest : n ∉ rest.map Prod.fst := fun hm => h (by simp [hm])
    rw [dictUpdate_cons, lookup_dictUpdate_not_mem n rest _ hrest,
      lookup_dictInsert_ne k n w hne]

theorem lookup_dictUpdate_mem (n : String) (v : Value) :
    ∀ (d2 d1 : Dict), (d2.map Prod.fst).Nodup → d2.lookup n = some v →
      (dictUpdate d1 d2).lookup n = some v
  | [], _, _, hl => by simp [List.lookup] at hl
  | (k, w) :: rest, d1, hnd, hl => by
    simp only [List.map, List.nodup_cons] at hnd
    by_cases h : n = k
    · subst h
      rw [lookup_cons_self] at hl
      rw [dictUpdate_cons, lookup_dictUpdate_not_mem n rest _ hnd.1,
        lookup_dictInsert_self]
      exact hl
    · rw [lookup_cons_ne k n w rest h] at hl
      rw [dictUpdate_cons]
      exact lookup_dictUpdate_mem n v rest _ hnd.2 hl

theorem lookup_dictUpdate_eq (n : String) (d1 d2 : Dict)
    (hnd : (d2.map Prod.fst).Nodup) (h1 : d1.lookup n = none) :
    (dictUpdate d1 d2).lookup n = d2.lookup n := by
  cases h2 : d2.lookup n with
  | some v => exact lookup_dictUpdate_mem n v d2 d1 hnd h2
  | none =>
    rw [lookup_dictUpdate_not_mem n d2 d1 ((lookup_eq_none_iff n d2).mp h2), h1]

/-! ## Loop lemmas -/

theorem prepare_related_list_eq_map :
    ∀ l : List Value,
      FormValidation.prepare_related_list l = l.map FormValidation.prepare_related_value
  | [] => rfl
  | v :: rest => by
    rw [FormValidation.prepare_related_list, prepare_related_list_eq_map rest, List.map_cons]

theorem filter_form_data_lookup_not_mem (bd : Dict) (n : String) :
    ∀ (fields : List (String × FormFieldDesc)) (d : Dict),
      n ∉ fields.map Prod.fst →
      (FormValidation.filter_form_data bd fields d).lookup n = d.lookup n
  | [], _, _ => rfl
  | (name, fld) :: rest, d, h => by
    have hne : n ≠ name := fun he => h (by subst he; simp)
    have hrest : n ∉ rest.map Prod.fst := fun hm => h (by simp [hm])
    rw [FormValidation.filter_form_data]
    cases hbd : bd.lookup name with
    | some w =>
      rw [filter_form_data_lookup_not_mem bd n rest _ hrest,
        lookup_dictInsert_ne name n w hne]
    | none =>
      exact filter_form_data_lookup_not_mem bd n rest d hrest

theorem filter_form_data_lookup_mem (bd : Dict) (n : String) (fld : FormFieldDesc)
    (val : Value) :
    ∀ (fields : List (String × FormFieldDesc)) (d : Dict),
      (fields.map Prod.fst).Nodup → (n, fld) ∈ fields → bd.lookup n = some val →
      (FormValidation.filter_form_data bd fields d).lookup n = some val
  | [], _, _, hmem, _ => by cases hmem
  | (name, g) :: rest, d, hnd, hmem, hbd => by
    simp only [List.map, List.nodup_cons] at hnd
    rcases List.mem_cons.mp hmem with heq | hmem'
    · have he : n = name := congrArg Prod.fst heq
      subst he
      rw [FormValidation.filter_form_data, hbd,
        filter_form_data_lookup_not_mem bd n rest _ hnd.1,
        lookup_dictInsert_self]
    · rw [FormValidation.filter_form_data]
      cases hbd' : bd.lookup name with
      | some w => exact filter_form_data_lookup_mem bd n fld val rest _ hnd.2 hmem' hbd
      | none => exact filter_form_data_lookup_mem bd n fld val rest d hnd.2 hmem' hbd

theorem normalize_related_lookup_not_mem (n : String) :
    ∀ (fields : List (String × FormFieldDesc)) (d : Dict),
      n ∉ fields.map Prod.fst →
      (FormValidation.normalize_related fields d).lookup n = d.lookup n
  | [], _, _ => rfl
  | (name, fld) :: rest, d, h => by
    have hne : n ≠ name := fun he => h (by subst he; simp)
    have hrest : n ∉ rest.map Prod.fst := fun hm => h (by simp [hm])
    rw [FormValidation.normalize_related]
    by_cases hr : fld.isRelational
    · rw [if_pos hr]
      cases hd : d.lookup name with
      | some w =>
        rw [normalize_related_lookup_not_mem n rest _ hrest,
          lookup_dictInsert_ne name n _ hne]
      | none => exact normalize_related_lookup_not_mem n rest d hrest
    · rw [if_neg hr]
      exact normalize_related_lookup_not_mem n rest d hrest

theorem normalize_related_lookup_rel (n : String) (fld : FormFieldDesc) (val : Value) :
    ∀ (fields : List (String × FormFieldDesc)) (d : Dict),
      (fields.map Prod.fst).Nodup → (n, fld) ∈ fields → fld.isRelational = true →
      d.lookup n = some val →
      (FormValidation.normalize_related fields d).lookup n =
        some (FormValidation.prepare_related_value val)
  | [], _, _, hmem, _, _ => by cases hmem
  | (name, g) :: rest, d, hnd, hmem, hrel, hd => by
    simp only [List.map, List.nodup_cons] at hnd
    rcases List.mem_cons.mp hmem with heq | hmem'
    · have he : n = name := congrArg Prod.fst heq
      have hg : g = fld := (congrArg Prod.snd heq).symm
      subst he; subst hg
      rw [FormValidation.normalize_related, if_pos hrel, hd,
        normalize_related_lookup_not_mem n rest _ hnd.1,
        lookup_dictInsert_self]
    · have hne : n ≠ name := fun he => by
        subst he
        exact hnd.1 (List.mem_map.mpr ⟨(n, fld), hmem', rfl⟩)
      rw [FormValidation.normalize_related]
      by_cases hr : g.isRelational
      · rw [if_pos hr]
        cases hd' : d.lookup name with
        | some w =>
          exact normalize_related_lookup_rel n fld val rest _ hnd.2 hmem' hrel
            (by rw [lookup_dictInsert_ne name n _ hne]; exact hd)
        | none => exact normalize_related_lookup_rel n fld val rest d hnd.2 hmem' hrel hd
      · rw [if_neg hr]
        exact normalize_related_lookup_rel n fld val rest d hnd.2 hmem' hrel hd

theorem model_to_dict_go_keys_nodup (b : Bundle) (fields : List (String × ResField)) :
    ∀ (d res : Dict), (d.map Prod.fst).Nodup → model_to_dict_go b fields d = some res →
      (res.map Prod.fst).Nodup := by
  induction fields with
  | nil =>
    intro d res hnd h
    cases h
    exact hnd
  | cons nf rest ih =>
    intro d res hnd h
    obtain ⟨name, fld⟩ := nf
    rw [model_to_dict_go] at h
    by_cases hr : fld.readonly
    · rw [if_pos hr] at h
      exact ih d res hnd h
    · rw [if_neg hr] at h
      split at h
      · split at h
        · exact ih _ res (keys_nodup_dictInsert _ _ d hnd) h
        · cases h
      · exact ih _ res (keys_nodup_dictInsert _ _ d hnd) h

theorem model_to_dict_keys_nodup (b : Bundle) (r : Resource) (md : Dict)
    (h : model_to_dict b r = some md) : (md.map Prod.fst).Nodup :=
  model_to_dict_go_keys_nodup b r.fields [] md (by simp) h

/-- Unfolding of `form_args`: it hands the bundle back unchanged, and its
`data` is the normalized filtered bundle data, overlaid with `model_to_dict`
exactly when the object exposes a primary key. -/
theorem form_args_spec (v : FormValidation) (b : Bundle) (r : Resource)
    (args : FormArgs) (b' : Bundle) (h : v.form_args b r = some (args, b')) :
    b' = b ∧
    ((b.obj.hasPk = false ∧ args.instanceArg = none ∧
        args.data = FormValidation.normalize_related v.form_class.base_fields
          (FormValidation.filter_form_data (b.data.getD []) v.form_class.base_fields [])) ∨
     (b.obj.hasPk = true ∧ (model_to_dict b r).isSome = true ∧
        args.instanceArg = (if v.form_class.isModelForm then some b.obj else none) ∧
        ∀ md, model_to_dict b r = some md →
          args.data = FormValidation.normalize_related v.form_class.base_fields
            (dictUpdate
              (FormValidation.filter_form_data (b.data.getD []) v.form_class.base_fields [])
              md))) := by
  cases hpk : b.obj.hasPk with
  | false =>
    simp only [FormValidation.form_args, hpk, Bool.false_eq_true, if_false,
      Option.some.injEq, Prod.mk.injEq] at h
    obtain ⟨hargs, hb⟩ := h
    exact ⟨hb.symm, Or.inl ⟨rfl, by rw [← hargs], by rw [← hargs]⟩⟩
  | true =>
    cases hmd : model_to_dict b r with
    | none =>
      simp only [FormValidation.form_args, hpk, if_true, hmd] at h
      exact Option.noConfusion h
    | some md =>
      simp only [FormValidation.form_args, hpk, if_true, hmd,
        Option.some.injEq, Prod.mk.injEq] at h
      obtain ⟨hargs, hb⟩ := h
      refine ⟨hb.symm, Or.inr ⟨rfl, rfl, by rw [← hargs], ?_⟩⟩
      intro md' hmd'
      cases hmd'
      rw [← hargs]

/-! ## Claim theorems -/

/-- C1: for every bundle and resource on which `FormValidation.is_valid`
returns normally, it either returns the empty error mapping and leaves
`bundle.data` updated with the form's cleaned values (overlaid on the
dehydrated model data), or returns the form's non-empty field-to-error-list
mapping verbatim and leaves the bundle untouched.  The hypothesis `hwf` is
the external form framework's contract that an invalid form reports a
non-empty `errors` mapping. -/
theorem is_valid_dichotomy (v : FormValidation) (b : Bundle) (r : Resource)
    (req : Option Unit) (errs : Errors) (b' : Bundle)
    (hwf : ∀ a, (v.form_class.run a).valid = false → (v.form_class.run a).errors ≠ [])
    (h : v.is_valid b r req = some (errs, b')) :
    (errs = [] ∧ b'.obj = b.obj ∧
      b'.data = (v.form_args b r).bind (fun p =>
        (model_to_dict b r).map (fun md =>
          dictUpdate md (v.form_class.run p.1).cleaned_data))) ∨
    (errs ≠ [] ∧ b' = b) := by
  cases hfa : v.form_args b r with
  | none =>
    rw [FormValidation.is_valid, hfa] at h
    exact Option.noConfusion h
  | some p =>
    obtain ⟨args, b1⟩ := p
    have hb1 : b1 = b := (form_args_spec v b r args b1 hfa).1
    subst hb1
    simp only [FormValidation.is_valid, hfa] at h
    cases hv : (v.form_class.run args).valid with
    | true =>
      simp only [hv, if_true] at h
      cases hmd : model_to_dict b1 r with
      | none =>
        rw [hmd] at h
        exact Option.noConfusion h
      | some md =>
        rw [hmd] at h
        simp only [Option.some.injEq, Prod.mk.injEq] at h
        obtain ⟨he, hb'⟩ := h
        refine Or.inl ⟨he.symm, ?_, ?_⟩
        · rw [← hb']
        · rw [← hb']
          rfl
    | false =>
      simp only [hv, Bool.false_eq_true, if_false, Option.some.injEq, Prod.mk.injEq] at h
      obtain ⟨he, hb'⟩ := h
      exact Or.inr ⟨he ▸ hwf args hv, hb'.symm⟩

/-- C8: for every bundle, resource and request, the no-op
`Validation.is_valid` returns the empty error mapping, regardless of the
bundle's contents. -/
theorem base_is_valid_empty (s : Validation) (b : Bundle) (r : Resource)
    (req : Option Unit) : Validation.is_valid s b r req = [] :=
  rfl

/-- C2: when the constructed form validates, `is_valid` returns the empty
mapping and sets `bundle.data` to the dehydrated serialization of the
non-read-only resource fields (`model_to_dict`, which replaces nested
`Bundle` values by their `resource_uri`) overlaid with the form's
`cleaned_data`; on shared keys the cleaned value takes precedence. -/
theorem is_valid_success (v : FormValidation) (b : Bundle) (r : Resource)
    (req : Option Unit) (args : FormArgs) (b1 : Bundle) (md : Dict)
    (hargs : v.form_args b r = some (args, b1))
    (hvalid : (v.form_class.run args).valid = true)
    (hmd : model_to_dict b r = some md)
    (hnd : ((v.form_class.run args).cleaned_data.map Prod.fst).Nodup) :
    v.is_valid b r req
      = some ([], { b with
          data := some (dictUpdate md (v.form_class.run args).cleaned_data) }) ∧
    ∀ k val, (v.form_class.run args).cleaned_data.lookup k = some val →
      (dictUpdate md (v.form_class.run args).cleaned_data).lookup k = some val := by
  have hb1 : b1 = b := (form_args_spec v b r args b1 hargs).1
  subst hb1
  constructor
  · simp only [FormValidation.is_valid, hargs, hvalid, if_true, hmd]
  · intro k val hk
    exact lookup_dictUpdate_mem k val _ md hnd hk

/-- C3: constructing `FormValidation` from keyword arguments without a
`form_class` entry raises `ImproperlyConfigured` at instantiation time
(before any validation is attempted); with one supplied, construction
succeeds and stores it. -/
theorem init_requires_form_class :
    (∀ kwargs : List (String × FormClass), kwargs.lookup "form_class" = none →
      FormValidation.init kwargs =
        .error (.improperlyConfigured
          "You must provide a form_class to FormValidation classes.")) ∧
    (∀ (kwargs : List (String × FormClass)) (fc : FormClass),
      kwargs.lookup "form_class" = some fc →
      FormValidation.init kwargs = .ok { form_class := fc }) := by
  constructor
  · intro kwargs h
    rw [FormValidation.init, h]
  · intro kwargs fc h
    rw [FormValidation.init, h]

/-- C4: for every relational form field whose incoming bundle value is the
URI string /api/v1/category/5/, the value `form_args` passes to the form
under that field is the identifier 5 (slashes stripped, last path segment
taken).  Stated in the create case (object without a primary key), where
`model_to_dict` does not overlay the incoming value. -/
theorem related_uri_normalized (v : FormValidation) (b : Bundle) (r : Resource)
    (n : String) (fld : FormFieldDesc) (args : FormArgs) (b' : Bundle)
    (hnd : (v.form_class.base_fields.map Prod.fst).Nodup)
    (hmem : (n, fld) ∈ v.form_class.base_fields)
    (hrel : fld.isRelational = true)
    (hpk : b.obj.hasPk = false)
    (hval : (b.data.getD []).lookup n = some (.vstr "/api/v1/category/5/"))
    (h : v.form_args b r = some (args, b')) :
    args.data.lookup n = some (.vstr "5") := by
  obtain ⟨-, hcase⟩ := form_args_spec v b r args b' h
  rcases hcase with ⟨-, -, hdata⟩ | ⟨hpk', -⟩
  · rw [hdata]
    have hfil : (FormValidation.filter_form_data (b.data.getD [])
        v.form_class.base_fields []).lookup n = some (.vstr "/api/v1/category/5/") :=
      filter_form_data_lookup_mem _ n fld _ _ _ hnd hmem hval
    rw [normalize_related_lookup_rel n fld _ _ _ hnd hmem hrel hfil]
    rfl
  · rw [hpk] at hpk'
    exact Bool.noConfusion hpk'

/-- C5: when the bundle's object has a primary key, the prepared keyword
arguments bind the instance exactly when the form class is a `ModelForm`
subclass, and the data is the filtered bundle data merged with the
dehydrated non-read-only serialization (`model_to_dict` overlaying the
filtered data), then relationally normalized. -/
theorem form_args_update_case (v : FormValidation) (b : Bundle) (r : Resource)
    (args : FormArgs) (b' : Bundle)
    (hpk : b.obj.hasPk = true)
    (h : v.form_args b r = some (args, b')) :
    args.instanceArg = (if v.form_class.isModelForm then some b.obj else none) ∧
    (model_to_dict b r).isSome = true ∧
    ∀ md, model_to_dict b r = some md →
      args.data = FormValidation.normalize_related v.form_class.base_fields
        (dictUpdate
          (FormValidation.filter_form_data (b.data.getD []) v.form_class.base_fields [])
          md) := by
  obtain ⟨-, hcase⟩ := form_args_spec v b r args b' h
  rcases hcase with ⟨hpk', -, -⟩ | ⟨-, hs, hi, hd⟩
  · rw [hpk] at hpk'
    exact Bool.noConfusion hpk'
  · exact ⟨hi, hs, hd⟩

/-- C6: relational normalization recurses into lists, and maps a list of
model instances to the list of their primary keys, in the same order. -/
theorem related_list_of_models (pks items : List Value) :
    FormValidation.prepare_related_value (.vlist items)
        = .vlist (items.map FormValidation.prepare_related_value) ∧
    FormValidation.prepare_related_value (.vlist (pks.map Value.vmodel)) = .vlist pks := by
  constructor
  · rw [FormValidation.prepare_related_value, prepare_related_list_eq_map]
  · rw [FormValidation.prepare_related_value, prepare_related_list_eq_map, List.map_map]
    have hid : FormValidation.prepare_related_value ∘ Value.vmodel = id := by
      funext pk
      rfl
    rw [hid, List.map_id]

/-- C7: a bundle data key that is not a declared form field is absent from
the prepared form data in the create case, and in the update case carries
exactly the binding `model_to_dict` reintroduces (or is absent when
`model_to_dict` does not mention it). -/
theorem form_data_only_declared_fields (v : FormValidation) (b : Bundle) (r : Resource)
    (k : String) (args : FormArgs) (b' : Bundle)
    (hk : k ∉ v.form_class.base_fields.map Prod.fst)
    (h : v.form_args b r = some (args, b')) :
    (b.obj.hasPk = false → args.data.lookup k = none) ∧
    (∀ md, b.obj.hasPk = true → model_to_dict b r = some md →
      args.data.lookup k = md.lookup k) := by
  obtain ⟨-, hcase⟩ := form_args_spec v b r args b' h
  have hfil : (FormValidation.filter_form_data (b.data.getD [])
      v.form_class.base_fields []).lookup k = none := by
    rw [filter_form_data_lookup_not_mem _ k _ _ hk]
    rfl
  rcases hcase with ⟨hpk, -, hdata⟩ | ⟨hpk, -, -, hdata⟩
  · constructor
    · intro _
      rw [hdata, normalize_related_lookup_not_mem k _ _ hk, hfil]
    · intro md hpk' _
      rw [hpk] at hpk'
      exact Bool.noConfusion hpk'
  · constructor
    · intro hpk'
      rw [hpk] at hpk'
      exact Bool.noConfusion hpk'
    · intro md _ hmd
      rw [hdata md hmd, normalize_related_lookup_not_mem k _ _ hk]
      exact lookup_dictUpdate_eq k _ md (model_to_dict_keys_nodup b r md hmd) hfil

/-- C9: relational normalization is the identity on every value that is not
a list, not a model instance, not a dict containing an id entry and not a
string: such values pass through `_prepare_related_value` unchanged. -/
theorem prepare_related_value_passthrough (v : Value)
    (h1 : ∀ l, v ≠ .vlist l) (h2 : ∀ pk, v ≠ .vmodel pk)
    (h3 : ∀ d, v = .vdict d → d.lookup "id" = none)
    (h4 : ∀ s, v ≠ .vstr s) :
    FormValidation.prepare_related_value v = v := by
  cases v with
  | vlist l => exact absurd rfl (h1 l)
  | vmodel pk => exact absurd rfl (h2 pk)
  | vdict d =>
    rw [FormValidation.prepare_related_value, h3 d rfl]
  | vstr s => exact absurd rfl (h4 s)
  | vint n => rfl
  | vnone => rfl
  | vbundle d => rfl

/-- C10: `form_args` never mutates its inputs: the bundle it hands back is
the bundle it was given, `data` and `obj` included (the prepared data is
built in fresh dictionaries, never by writing through the bundle). -/
theorem form_args_frame (v : FormValidation) (b : Bundle) (r : Resource)
    (args : FormArgs) (b' : Bundle) (h : v.form_args b r = some (args, b')) :
    b' = b ∧ b'.data = b.data ∧ b'.obj = b.obj := by
  have he : b' = b := (form_args_spec v b r args b' h).1
  exact ⟨he, by rw [he], by rw [he]⟩

/-! ## Witnesses -/

/-- A form class rejecting every input with one field error. -/
def failFormClass : FormClass :=
  { base_fields := [], isModelForm := false,
    run := fun _ => { valid := false, cleaned_data := [], errors := [("name", ["required"])] } }

/-- A form class accepting every input with one cleaned value. -/
def okFormClass : FormClass :=
  { base_fields := [], isModelForm := false,
    run := fun _ => { valid := true, cleaned_data := [("title", Value.vstr "hi")], errors := [] } }

/-- A bundle with empty data on an object without a primary key. -/
def emptyBundle : Bundle := { data := some [], obj := { hasPk := false, pk := Value.vnone } }

/-- A resource with no fields. -/
def emptyResource : Resource := { fields := [] }

/-- A resource with one writable slug field. -/
def slugResource : Resource :=
  { fields := [("slug", { readonly := false, dehydrate := fun _ => Value.vstr "s" })] }

/-- Witness for C1 at a concrete always-failing form. -/
theorem is_valid_dichotomy_witness :
    FormValidation.is_valid { form_class := failFormClass } emptyBundle emptyResource none
        = some ([("name", ["required"])], emptyBundle) ∧
    (([("name", ["required"])] : Errors) = [] ∧ emptyBundle.obj = emptyBundle.obj ∧
        emptyBundle.data =
          (FormValidation.form_args { form_class := failFormClass } emptyBundle
              emptyResource).bind
            (fun p => (model_to_dict emptyBundle emptyResource).map
              (fun md => dictUpdate md (failFormClass.run p.1).cleaned_data)) ∨
      ([("name", ["required"])] : Errors) ≠ [] ∧ emptyBundle = emptyBundle) :=
  ⟨rfl,
   is_valid_dichotomy { form_class := failFormClass } emptyBundle emptyResource none
     [("name", ["required"])] emptyBundle
     (fun _ _ => by simp [failFormClass]) rfl⟩

/-- Witness for C2 at a concrete succeeding form over a one-field resource. -/
theorem is_valid_success_witness :
    FormValidation.form_args { form_class := okFormClass } emptyBundle slugResource
        = some ({ instanceArg := none, data := [] }, emptyBundle) ∧
    model_to_dict emptyBundle slugResource = some [("slug", Value.vstr "s")] ∧
    FormValidation.is_valid { form_class := okFormClass } emptyBundle slugResource none
        = some ([], { emptyBundle with
            data := some (dictUpdate [("slug", Value.vstr "s")]
              (okFormClass.run { instanceArg := none, data := [] }).cleaned_data) }) ∧
    (dictUpdate [("slug", Value.vstr "s")]
        (okFormClass.run { instanceArg := none, data := [] }).cleaned_data).lookup "title"
      = some (Value.vstr "hi") :=
  ⟨rfl, rfl,
   (is_valid_success { form_class := okFormClass } emptyBundle slugResource none
      { instanceArg := none, data := [] } emptyBundle [("slug", Value.vstr "s")]
      rfl rfl rfl (by decide)).1,
   (is_valid_success { form_class := okFormClass } emptyBundle slugResource none
      { instanceArg := none, data := [] } emptyBundle [("slug", Value.vstr "s")]
      rfl rfl rfl (by decide)).2 "title" (Value.vstr "hi") rfl⟩

/-- Witness for C3: construction without a form_class kwarg fails, and with
one it succeeds and stores it. -/
theorem init_requires_form_class_witness :
    FormValidation.init [] =
        .error (.improperlyConfigured
          "You must provide a form_class to FormValidation classes.") ∧
    FormValidation.init [("form_class", okFormClass)] = .ok { form_class := okFormClass } :=
  ⟨init_requires_form_class.1 [] rfl,
   init_requires_form_class.2 [("form_class", okFormClass)] okFormClass rfl⟩

/-- A form class with one relational category field. -/
def categoryFormClass : FormClass :=
  { base_fields := [("category", { isRelational := true })], isModelForm := false,
    run := fun _ => { valid := true, cleaned_data := [], errors := [] } }

/-- A bundle whose category value is a resource URI. -/
def uriBundle : Bundle :=
  { data := some [("category", Value.vstr "/api/v1/category/5/")],
    obj := { hasPk := false, pk := Value.vnone } }

/-- Witness for C4: the URI string reaches the form as the identifier 5. -/
theorem related_uri_normalized_witness :
    FormValidation.form_args { form_class := categoryFormClass } uriBundle emptyResource
        = some ({ instanceArg := none, data := [("category", Value.vstr "5")] }, uriBundle) ∧
    (uriBundle.data.getD []).lookup "category"
        = some (Value.vstr "/api/v1/category/5/") ∧
    (FormArgs.data
        { instanceArg := none, data := [("category", Value.vstr "5")] }).lookup "category"
      = some (Value.vstr "5") :=
  ⟨rfl, rfl,
   related_uri_normalized { form_class := categoryFormClass } uriBundle emptyResource
     "category" { isRelational := true }
     { instanceArg := none, data := [("category", Value.vstr "5")] } uriBundle
     (by decide) (by decide) rfl rfl rfl rfl⟩

/-- A ModelForm-style form class with no declared fields. -/
def modelFormClass : FormClass :=
  { base_fields := [], isModelForm := true,
    run := fun _ => { valid := true, cleaned_data := [], errors := [] } }

/-- A bundle whose object has a primary key. -/
def pkBundle : Bundle :=
  { data := some [], obj := { hasPk := true, pk := Value.vint 7 } }

/-- A resource with one writable title field. -/
def titleResource : Resource :=
  { fields := [("title", { readonly := false, dehydrate := fun _ => Value.vstr "x" })] }

/-- Witness for C5 at a concrete update-case call. -/
theorem form_args_update_case_witness :
    pkBundle.obj.hasPk = true ∧
    FormValidation.form_args { form_class := modelFormClass } pkBundle titleResource
        = some ({ instanceArg := some pkBundle.obj, data := [("title", Value.vstr "x")] },
            pkBundle) ∧
    FormArgs.instanceArg
        { instanceArg := some pkBundle.obj, data := [("title", Value.vstr "x")] }
      = (if modelFormClass.isModelForm then some pkBundle.obj else none) ∧
    (model_to_dict pkBundle titleResource).isSome = true ∧
    FormArgs.data { instanceArg := some pkBundle.obj, data := [("title", Value.vstr "x")] }
      = FormValidation.normalize_related modelFormClass.base_fields
          (dictUpdate
            (FormValidation.filter_form_data (pkBundle.data.getD [])
              modelFormClass.base_fields [])
            [("title", Value.vstr "x")]) :=
  ⟨rfl, rfl,
   (form_args_update_case { form_class := modelFormClass } pkBundle titleResource
      { instanceArg := some pkBundle.obj, data := [("title", Value.vstr "x")] } pkBundle
      rfl rfl).1,
   (form_args_update_case { form_class := modelFormClass } pkBundle titleResource
      { instanceArg := some pkBundle.obj, data := [("title", Value.vstr "x")] } pkBundle
      rfl rfl).2.1,
   (form_args_update_case { form_class := modelFormClass } pkBundle titleResource
      { instanceArg := some pkBundle.obj, data := [("title", Value.vstr "x")] } pkBundle
      rfl rfl).2.2 [("title", Value.vstr "x")] rfl⟩

/-- A form class declaring just one plain title field. -/
def titleFormClass : FormClass :=
  { base_fields := [("title", { isRelational := false })], isModelForm := false,
    run := fun _ => { valid := true, cleaned_data := [], errors := [] } }

/-- A bundle carrying an undeclared extra key, on an object with a pk. -/
def extraBundle : Bundle :=
  { data := some [("extra", Value.vint 1), ("title", Value.vstr "t")],
    obj := { hasPk := true, pk := Value.vint 3 } }

/-- A resource with one writable extra field. -/
def extraResource : Resource :=
  { fields := [("extra", { readonly := false, dehydrate := fun _ => Value.vint 9 })] }

/-- Witness for C7: the undeclared extra key is filtered out of the form
data and reappears only through model_to_dict. -/
theorem form_data_only_declared_fields_witness :
    ("extra" ∉ titleFormClass.base_fields.map Prod.fst) ∧
    FormValidation.form_args { form_class := titleFormClass } extraBundle extraResource
        = some (FormArgs.mk none [("title", Value.vstr "t"), ("extra", Value.vint 9)],
            extraBundle) ∧
    (FormArgs.mk none [("title", Value.vstr "t"), ("extra", Value.vint 9)]).data.lookup
        "extra"
      = ([("extra", Value.vint 9)] : Dict).lookup "extra" :=
  ⟨by decide, rfl,
   (form_data_only_declared_fields { form_class := titleFormClass } extraBundle
      extraResource "extra"
      (FormArgs.mk none [("title", Value.vstr "t"), ("extra", Value.vint 9)])
      extraBundle (by decide) rfl).2 [("extra", Value.vint 9)] rfl rfl⟩

/-- Witness for C9 at a dict value carrying no id entry. -/
theorem prepare_related_value_passthrough_witness :
    ([("name", Value.vstr "x")] : Dict).lookup "id" = none ∧
    FormValidation.prepare_related_value (.vdict [("name", Value.vstr "x")])
      = .vdict [("name", Value.vstr "x")] :=
  ⟨rfl,
   prepare_related_value_passthrough (.vdict [("name", Value.vstr "x")])
     (fun l h => nomatch h) (fun pk h => nomatch h)
     (fun d hd => by cases hd; rfl) (fun s h => nomatch h)⟩

/-- Witness for C10 at a concrete call. -/
theorem form_args_frame_witness :
    FormValidation.form_args { form_class := titleFormClass } uriBundle emptyResource
        = some ({ instanceArg := none, data := [] }, uriBundle) ∧
    uriBundle = uriBundle ∧ uriBundle.data = uriBundle.data ∧
    uriBundle.obj = uriBundle.obj :=
  ⟨rfl,
   form_args_frame { form_class := titleFormClass } uriBundle emptyResource
     { instanceArg := none, data := [] } uriBundle rfl⟩
